import Mathlib

/-!
Verification development for the asteval fork: a shallow embedding of the
execution engine in `src/asteval/asteval.py` (the dispatch loop
`Interpreter.run`, the statement/expression handlers, `Procedure.__call__`)
and of the symbol model in `src/asteval/frame.py`, together with theorems
settling the frozen claims about the specification.

Modelling conventions:
* Machine state is threaded explicitly through a fuel-indexed evaluator
  `interp`.  The fuel plays the role of the cycle counter checked at the top
  of `Interpreter.run`: every dispatch step consumes one unit, and running
  out of fuel models the `Max cycles exceeded` RuntimeError, which the real
  code raises without recording an error first.
* A Python exception in flight is the `Res.raised k` result, carrying the
  class of the flying exception.  `Interpreter.raise_exception` both appends
  an error record, sets the `_interrupt` flag to a Break node, and re-raises;
  the model mirrors this exactly, including the re-raise record (with empty
  message) appended by each enclosing `run` call whose `with_raise` is true.
* `astutils.py` is not part of the sources; the pieces of it that the engine
  uses (`UNSAFE_ATTRS`, `valid_symbol_name`, the guarded power operator, and
  the `ExceptionHolder` payload read back by `on_try`) are modelled from the
  specification text, and are marked as such in their doc comments.
-/

namespace Asteval

/-- Failure kinds distinguished by the engine.  They stand for the Python
exception classes that `raise_exception` raises and that error records carry. -/
inductive ErrKind
  | nameError
  | typeError
  | attributeError
  | runtimeError
  | assertionError
  | valueError
deriving DecidableEq

/-- One record of the error accumulator `Interpreter.error`: the exception
class and message passed to `raise_exception`.  Node reference, source text
and line number are omitted (pure diagnostics). -/
structure Err where
  kind : ErrKind
  msg : String
deriving DecidableEq

/-- Modelled from the spec: `astutils.ExceptionHolder` is not under src/.
`on_try` reads `error[-1].exc_info[1]`, "the triggering condition is stored
as last error"; the model exposes a record's exception value directly. -/
def Err.excValue (kind : ErrKind) (msg : String) : ErrKind × String := (kind, msg)

/-- The pending control signal `Interpreter._interrupt`: a Break or Continue
node (`raise_exception` also stores a Break node here). -/
inductive Interrupt
  | brk
  | cont
deriving DecidableEq

/-- Binary operator tokens routed through `op2func` that the claims need. -/
inductive BinOpK
  | add
  | mul
  | pow
deriving DecidableEq

/-- Expression nodes (the `ast` node variants the claims need).
`attrLoad` is a load-context `ast.Attribute` node. -/
inductive Expr
  | num (n : Int)
  | boolLit (b : Bool)
  | noneLit
  | listLit (elts : List Expr)
  | name (id : String)
  | binop (op : BinOpK) (left right : Expr)
  | attrLoad (value : Expr) (attr : String)
  | call (func : Expr) (args : List Expr)

/-- Statement nodes.  A `tryS` handler is `(name?, body)`: `on_excepthandler`
never reads the handler's `type` field, so it is not represented. -/
inductive Stmt
  | exprS (e : Expr)
  | assign (target : String) (e : Expr)
  | ret (e : Option Expr)
  | ifS (test : Expr) (body orelse : List Stmt)
  | whileS (test : Expr) (body orelse : List Stmt)
  | forS (target : String) (iter : Expr) (body orelse : List Stmt)
  | tryS (body : List Stmt) (handlers : List (Option String × List Stmt))
      (orelse finalbody : List Stmt)
  | brk
  | cont
  | pass
  | defS (name : String) (argnames : List String)
      (vararg varkws : Option String) (body : List Stmt)

/-- Runtime values.  `proc` is a `Procedure` object: name, required-parameter
names, (name, default) pairs for optional parameters, optional variadic
names, and the stored body statements.  `exc` is an exception instance (used
for the `last_error` value bound by handlers).  `obj` is a host object with
an attribute dictionary (also used for the leftover-keyword dict). -/
inductive Value
  | none
  | boolV (b : Bool)
  | int (n : Int)
  | list (elts : List Value)
  | obj (attrs : List (String × Value))
  | exc (kind : ErrKind) (msg : String)
  | proc (name : String) (argnames : List String)
      (kwargs : List (String × Value)) (vararg varkws : Option String)
      (body : List Stmt)

/-- Python truthiness of the modelled values. -/
def truthy : Value → Bool
  | .none => false
  | .boolV b => b
  | .int n => n != 0
  | .list xs => !xs.isEmpty
  | .obj _ => true
  | .exc _ _ => true
  | .proc _ _ _ _ _ _ => true

/-- Association-list lookup, modelling reading a Python dict. -/
def lookupSym : List (String × Value) → String → Option Value
  | [], _ => Option.none
  | (k, v) :: rest, n => if k = n then some v else lookupSym rest n

/-- Association-list insert/replace, modelling a Python dict store
(insertion order preserved, existing key updated in place). -/
def insertSym : List (String × Value) → String → Value → List (String × Value)
  | [], n, v => [(n, v)]
  | (k, w) :: rest, n, v =>
    if k = n then (k, v) :: rest else (k, w) :: insertSym rest n v

/-- Remove a key, modelling `dict.pop`. -/
def eraseKw : List (String × Value) → String → List (String × Value)
  | [], _ => []
  | (k, w) :: rest, n => if k = n then rest else (k, w) :: eraseKw rest n

/-- `dict.update`, as used by `Procedure.__call__` to overlay the bound
parameters onto the shared symbol table. -/
def overlay (base upd : List (String × Value)) : List (String × Value) :=
  upd.foldl (fun acc kv => insertSym acc kv.1 kv.2) base

/-- The per-evaluation run state of one `Interpreter` instance: the flat
namespace `symtable`, the error accumulator `error`, the pending control
signal `_interrupt`, the return-value slot `retval` (`Option.none` models
"no return yet"; `some Value.none` models the `ReturnedNone` sentinel), and
the captured `last_error` value for handler binding. -/
structure St where
  symtable : List (String × Value)
  error : List Err
  interrupt : Option Interrupt
  retval : Option Value
  lastError : Option Value

/-- Result of one dispatch step: a value (statements yield `Option.none`),
a list of values (argument/element evaluation), the `no_errors` flag of a
try-body sweep, or a flying Python exception of class `k`. -/
inductive Res
  | val (v : Option Value)
  | vals (vs : List Value)
  | flag (b : Bool)
  | raised (k : ErrKind)

/-- The class `raise_exception` re-raises when called with `exc=None`:
`self.error[0].exc`, defaulting to RuntimeError. -/
def headKind (s : St) : ErrKind :=
  match s.error.head? with
  | some e => e.kind
  | _ => .runtimeError

/-- State effect of `Interpreter.raise_exception(exc, msg)`: append an error
record and store a Break node in `_interrupt`. -/
def recordErr (k : ErrKind) (m : String) (s : St) : St :=
  { s with error := s.error ++ [⟨k, m⟩], interrupt := some .brk }

/-- `raise_exception` called with an explicit exception class: record the
failure and raise that class. -/
def raiseExcRes (k : ErrKind) (m : String) (s : St) : Res × St :=
  (.raised k, recordErr k m s)

/-- `raise_exception` called with `exc=None` while an exception of class `k`
is in flight (the `except` clause of `run`, of `on_call`, and of the
argument-binding block of `Procedure.__call__`): the record carries the
flying class, and the re-raised class is `error[0].exc`. -/
def reraise (k : ErrKind) (m : String) (s : St) : Res × St :=
  let s2 := recordErr k m s
  (.raised (headKind s2), s2)

/-- Modelled from the spec: `astutils.UNSAFE_ATTRS` is not under src/; the
spec calls it "a fixed deny-list of attribute names considered unsafe
(covering reflection/escape-enabling names)". -/
def UNSAFE_ATTRS : List String :=
  ["__class__", "__bases__", "__subclasses__", "__mro__", "__globals__",
   "__code__", "__closure__", "__func__", "__self__", "__module__",
   "__dict__", "__getattribute__", "__subclasshook__", "__new__",
   "__init__", "func_globals", "func_code", "func_closure",
   "im_class", "im_func", "im_self", "gi_code", "gi_frame", "__asteval__"]

/-- Modelled from the spec: `astutils.valid_symbol_name` is not under src/;
the spec says binding "rejects reserved/invalid identifiers with a naming
failure".  Reserved words of the host grammar. -/
def RESERVED_WORDS : List String :=
  ["and", "as", "assert", "break", "class", "continue", "def", "del",
   "elif", "else", "except", "exec", "finally", "for", "from", "global",
   "if", "import", "in", "is", "lambda", "not", "or", "pass", "print",
   "raise", "return", "try", "while", "with", "yield",
   "True", "False", "None"]

/-- Modelled from the spec (see `RESERVED_WORDS`). -/
def valid_symbol_name (s : String) : Bool :=
  !(RESERVED_WORDS.contains s) && s ≠ ""

/-- The digit ceiling of the guarded integer power: `10**10000` (10001
digits) is the largest power of ten allowed, `10**10001` fails. -/
def MAX_POW_DIGITS : Nat := 10001

/-- Modelled from the spec: the guarded exponent operator in
`astutils.op2func` is not under src/.  "Integer exponentiation … must
pre-validate operand magnitude before computing and fail fast with a
resource failure if the result would exceed a fixed bit-length/digit
ceiling"; the boundary is exact at `10**10000` (allowed) versus `10**10001`
(resource failure, surfacing as a RuntimeError). -/
def safe_pow (b : Int) (e : Nat) : Except Unit Int :=
  if 10 ^ MAX_POW_DIGITS ≤ b.natAbs ^ e then .error () else .ok (b ^ e)

/-- Semantic functions for the binary operator tokens (`op2func`).  A native
type failure raises a TypeError with no record; the guarded power raises a
RuntimeError (resource failure) when the digit ceiling is exceeded. -/
def applyBin : BinOpK → Value → Value → Except ErrKind Value
  | .add, .int a, .int b => .ok (.int (a + b))
  | .mul, .int a, .int b => .ok (.int (a * b))
  | .pow, .int a, .int b =>
    if b < 0 then .error .typeError
    else
      match safe_pow a b.toNat with
      | .ok v => .ok (.int v)
      | .error _ => .error .runtimeError
  | _, _, _ => .error .typeError

/-- Native attribute lookup `getattr`: only `obj` values carry attributes. -/
def getattrV : Value → String → Option Value
  | .obj attrs, a => lookupSym attrs a
  | _, _ => Option.none

/-- Whether a value answers Python's `hasattr(func, '__call__')` test in
`on_call`: only `Procedure` values are callable in the model. -/
def isCallable : Value → Bool
  | .proc _ _ _ _ _ _ => true
  | _ => false

/-- Display name used by `on_call`'s error message. -/
def procName : Value → String
  | .proc n _ _ _ _ _ => n
  | _ => ""

/-- Keyword-to-positional reclassification at the top of
`Procedure.__call__`: walk the still-unfilled parameter names in order and
move a matching keyword argument to the end of the positional list. -/
def moveKwargs : List String → List Value → List (String × Value) →
    List Value × List (String × Value)
  | [], args, kw => (args, kw)
  | n :: rest, args, kw =>
    match lookupSym kw n with
    | some v => moveKwargs rest (args ++ [v]) (eraseKw kw n)
    | _ => moveKwargs rest args kw

/-- Optional-parameter binding in `Procedure.__call__`: each `(key, default)`
pair binds the supplied keyword value when present (consuming it), else the
precomputed default. -/
def bindDefaults : List (String × Value) → List (String × Value) →
    List (String × Value) → List (String × Value) × List (String × Value)
  | [], syml, kw => (syml, kw)
  | (key, defv) :: rest, syml, kw =>
    match lookupSym kw key with
    | some v => bindDefaults rest (insertSym syml key v) (eraseKw kw key)
    | _ => bindDefaults rest (insertSym syml key defv) kw

/-- Arity-failure message of `Procedure.__call__`, naming expected versus
actual counts. -/
def arityMsg (pname : String) (expected got : Nat) : String :=
  "not enough arguments for Procedure " ++ pname ++ " expected " ++
    toString expected ++ " got " ++ toString got

/-- One dispatch task of the evaluator.  `expr`/`stmt`/`handlerRun` are
`Interpreter.run` calls (cycle bump, sticky-error check, record-on-raise
when `with_raise`); the remaining tasks are the loops inside individual
handlers and inside `Procedure.__call__`. -/
inductive Task
  | expr (e : Expr)
  | exprH (e : Expr)
  | exprs (es : List Expr)
  | stmt (withRaise : Bool) (t : Stmt)
  | stmtH (t : Stmt)
  | seq (withRaise : Bool) (l : List Stmt)
  | modSeq (l : List Stmt) (out : Option Value)
  | loopBody (l : List Stmt)
  | whileL (test : Expr) (body orelse : List Stmt)
  | forL (target : String) (vals : List Value) (body orelse : List Stmt)
  | tryBodyT (l : List Stmt) (noErrors : Bool)
      (handlers : List (Option String × List Stmt))
  | handlersT (hs : List (Option String × List Stmt))
  | handlerRun (h : Option String × List Stmt)
  | handlerH (h : Option String × List Stmt)
  | callProc (f : Value) (args : List Value) (kwargs : List (String × Value))
  | procBody (l : List Stmt)

/-- The evaluator.  Each case is the direct translation of the
corresponding handler of `Interpreter` (or of `Procedure.__call__`); the
fuel models the cycle budget of `Interpreter.run` and running out of it is
the recordless `Max cycles exceeded` RuntimeError. -/
def interp : Nat → Task → St → Res × St
  | 0, _, s => (.raised .runtimeError, s)
  | fuel + 1, t, s =>
    match t with
    | .expr e =>
      -- Interpreter.run on an expression node (with_raise is always true)
      if s.error.isEmpty then
        match interp fuel (.exprH e) s with
        | (.raised k, s1) => reraise k "" s1
        | r => r
      else (.val Option.none, s)
    | .stmt wr t' =>
      -- Interpreter.run on a statement node
      if s.error.isEmpty then
        match interp fuel (.stmtH t') s with
        | (.raised k, s1) =>
          if wr then reraise k "" s1 else (.val Option.none, s1)
        | r => r
      else (.val Option.none, s)
    | .handlerRun h =>
      -- Interpreter.run on an excepthandler node (on_try's handler loop)
      if s.error.isEmpty then
        match interp fuel (.handlerH h) s with
        | (.raised k, s1) => reraise k "" s1
        | r => r
      else (.val Option.none, s)
    | .exprH e =>
      match e with
      | .num n => (.val (some (.int n)), s)
      | .boolLit b => (.val (some (.boolV b)), s)
      | .noneLit => (.val (some .none), s)
      | .listLit es =>
        match interp fuel (.exprs es) s with
        | (.vals vs, s1) => (.val (some (.list vs)), s1)
        | (r, s1) => (r, s1)
      | .name id =>
        match lookupSym s.symtable id with
        | some v => (.val (some v), s)
        | _ => raiseExcRes .nameError ("name " ++ id ++ " is not defined") s
      | .binop op l r =>
        match interp fuel (.expr l) s with
        | (.val lv, s1) =>
          match interp fuel (.expr r) s1 with
          | (.val rv, s2) =>
            match applyBin op (lv.getD .none) (rv.getD .none) with
            | .ok v => (.val (some v), s2)
            | .error k => (.raised k, s2)
          | (r2, s2) => (r2, s2)
        | (r1, s1) => (r1, s1)
      | .attrLoad ve a =>
        match interp fuel (.expr ve) s with
        | (.val sv, s1) =>
          if !(UNSAFE_ATTRS.contains a) && (getattrV (sv.getD .none) a).isSome then
            (.val (getattrV (sv.getD .none) a), s1)
          else
            -- on_attribute re-runs node.value before raising
            match interp fuel (.expr ve) s1 with
            | (.val _, s2) =>
              let msg := if UNSAFE_ATTRS.contains a
                then "cannnot access attribute " ++ a
                else "no attribute " ++ a
              raiseExcRes .attributeError msg s2
            | (r2, s2) => (r2, s2)
        | (r1, s1) => (r1, s1)
      | .call f args =>
        match interp fuel (.expr f) s with
        | (.val fv, s1) =>
          if isCallable (fv.getD .none) then
            match interp fuel (.exprs args) s1 with
            | (.vals argvs, s2) =>
              match interp fuel (.callProc (fv.getD .none) argvs []) s2 with
              | (.raised k, s3) =>
                reraise k ("Error calling " ++ procName (fv.getD .none)) s3
              | (r3, s3) => (r3, s3)
            | (r2, s2) => (r2, s2)
          else raiseExcRes .typeError "is not callable" s1
        | (r1, s1) => (r1, s1)
    | .exprs es =>
      match es with
      | [] => (.vals [], s)
      | e :: rest =>
        match interp fuel (.expr e) s with
        | (.val v, s1) =>
          match interp fuel (.exprs rest) s1 with
          | (.vals vs, s2) => (.vals ((v.getD .none) :: vs), s2)
          | (r2, s2) => (r2, s2)
        | (r1, s1) => (r1, s1)
    | .stmtH t' =>
      match t' with
      | .exprS e => interp fuel (.expr e) s
      | .assign target e =>
        match interp fuel (.expr e) s with
        | (.val v, s1) =>
          if valid_symbol_name target then
            (.val Option.none,
              { s1 with symtable := insertSym s1.symtable target (v.getD .none) })
          else raiseExcRes .nameError ("invalid symbol name " ++ target) s1
        | (r1, s1) => (r1, s1)
      | .ret oe =>
        match oe with
        | some e =>
          match interp fuel (.expr e) s with
          | (.val v, s1) => (.val Option.none, { s1 with retval := some (v.getD .none) })
          | (r1, s1) => (r1, s1)
        | _ => (.val Option.none, { s with retval := some .none })
      | .ifS test body orelse =>
        match interp fuel (.expr test) s with
        | (.val tv, s1) =>
          interp fuel (.seq true (if truthy (tv.getD .none) then body else orelse)) s1
        | (r1, s1) => (r1, s1)
      | .whileS test body orelse =>
        match interp fuel (.whileL test body orelse) s with
        | (.raised k, s1) => (.raised k, s1)
        | (_, s1) => (.val Option.none, { s1 with interrupt := Option.none })
      | .forS target iter body orelse =>
        match interp fuel (.expr iter) s with
        | (.val iv, s1) =>
          match iv.getD .none with
          | .list vs =>
            match interp fuel (.forL target vs body orelse) s1 with
            | (.raised k, s2) => (.raised k, s2)
            | (_, s2) => (.val Option.none, { s2 with interrupt := Option.none })
          | _ => (.raised .typeError, s1)
        | (r1, s1) => (r1, s1)
      | .tryS body handlers orelse finalbody =>
        match interp fuel (.tryBodyT body true handlers) s with
        | (.raised k, s1) => (.raised k, s1)
        | (.flag noErrors, s1) =>
          match (if noErrors then interp fuel (.seq true orelse) s1
                 else (.val Option.none, s1)) with
          | (.raised k, s2) => (.raised k, s2)
          | (_, s2) =>
            match interp fuel (.seq true finalbody) s2 with
            | (.raised k, s3) => (.raised k, s3)
            | (_, s3) => (.val Option.none, s3)
        | (_, s1) => (.val Option.none, s1)
      | .brk => (.val Option.none, { s with interrupt := some .brk })
      | .cont => (.val Option.none, { s with interrupt := some .cont })
      | .pass => (.val Option.none, s)
      | .defS name argnames vararg varkws body =>
        (.val Option.none,
          { s with symtable :=
              insertSym s.symtable name (.proc name argnames [] vararg varkws body) })
    | .seq wr l =>
      match l with
      | [] => (.val Option.none, s)
      | t' :: rest =>
        match interp fuel (.stmt wr t') s with
        | (.raised k, s1) => (.raised k, s1)
        | (_, s1) => interp fuel (.seq wr rest) s1
    | .modSeq l out =>
      match l with
      | [] => (.val out, s)
      | t' :: rest =>
        match interp fuel (.stmt true t') s with
        | (.raised k, s1) => (.raised k, s1)
        | (.val v, s1) => interp fuel (.modSeq rest v) s1
        | (_, s1) => interp fuel (.modSeq rest Option.none) s1
    | .loopBody l =>
      match l with
      | [] => (.val Option.none, s)
      | t' :: rest =>
        match interp fuel (.stmt true t') s with
        | (.raised k, s1) => (.raised k, s1)
        | (_, s1) =>
          if s1.interrupt.isSome then (.val Option.none, s1)
          else interp fuel (.loopBody rest) s1
    | .whileL test body orelse =>
      match interp fuel (.expr test) s with
      | (.val tv, s1) =>
        if truthy (tv.getD .none) then
          match interp fuel (.loopBody body) { s1 with interrupt := Option.none } with
          | (.raised k, s2) => (.raised k, s2)
          | (_, s2) =>
            if s2.interrupt = some .brk then (.val Option.none, s2)
            else interp fuel (.whileL test body orelse) s2
        else interp fuel (.seq true orelse) s1
      | (r1, s1) => (r1, s1)
    | .forL target vals body orelse =>
      match vals with
      | [] => interp fuel (.seq true orelse) s
      | v :: rest =>
        if valid_symbol_name target then
          match interp fuel (.loopBody body)
              { s with symtable := insertSym s.symtable target v,
                       interrupt := Option.none } with
          | (.raised k, s2) => (.raised k, s2)
          | (_, s2) =>
            if s2.interrupt = some .brk then (.val Option.none, s2)
            else interp fuel (.forL target rest body orelse) s2
        else raiseExcRes .nameError ("invalid symbol name " ++ target) s
    | .tryBodyT l noErrors handlers =>
      match l with
      | [] => (.flag noErrors, s)
      | t' :: rest =>
        match interp fuel (.stmt false t') s with
        | (.raised k, s1) => (.raised k, s1)
        | (_, s1) =>
          if s1.error.isEmpty then
            interp fuel (.tryBodyT rest (noErrors && s1.error.isEmpty) handlers) s1
          else
            let le := match s1.error.getLast? with
              | some e => some (Value.exc e.kind e.msg)
              | _ => Option.none
            match interp fuel (.handlersT handlers)
                { s1 with lastError := le, error := [] } with
            | (.raised k, s2) => (.raised k, s2)
            | (_, s2) =>
              (.flag (noErrors && s1.error.isEmpty), { s2 with lastError := Option.none })
    | .handlersT hs =>
      match hs with
      | [] => (.val Option.none, s)
      | h :: rest =>
        match interp fuel (.handlerRun h) s with
        | (.raised k, s1) => (.raised k, s1)
        | (_, s1) => interp fuel (.handlersT rest) s1
    | .handlerH h =>
      match h.1, s.lastError with
      | some nm, some lv =>
        if truthy lv then
          if valid_symbol_name nm then
            interp fuel (.seq false h.2) { s with symtable := insertSym s.symtable nm lv }
          else raiseExcRes .nameError ("invalid symbol name " ++ nm) s
        else interp fuel (.seq false h.2) s
      | _, _ => interp fuel (.seq false h.2) s
    | .callProc f args0 kwargs0 =>
      match f with
      | .proc pname argnames kwdefs vararg varkws body =>
        let p1 := if args0.length < argnames.length ∧ 0 < kwargs0.length
          then moveKwargs (argnames.drop args0.length) args0 kwargs0
          else (args0, kwargs0)
        match argnames.find? (fun targ => (lookupSym p1.2 targ).isSome) with
        | some targ =>
          raiseExcRes .typeError
            ("multiple values for keyword argument " ++ targ ++
              " in Procedure " ++ pname) s
        | _ =>
          if p1.1.length < argnames.length then
            raiseExcRes .typeError (arityMsg pname argnames.length p1.1.length) s
          else
            let symlocals := argnames.zip p1.1
            let leftover := p1.1.drop argnames.length
            let symlocals := match vararg with
              | some va => insertSym symlocals va (.list leftover)
              | _ => symlocals
            let p2 := bindDefaults kwdefs symlocals p1.2
            match varkws, p2.2 with
            | Option.none, _ :: _ =>
              -- extra keywords: TypeError raised inside the binding try,
              -- caught there, re-raised as "incorrect arguments"
              let s1 := recordErr .typeError
                ("extra keyword arguments for Procedure " ++ pname) s
              reraise .typeError ("incorrect arguments for Procedure " ++ pname) s1
            | ovk, _ =>
              let symlocals := match ovk with
                | some vk => insertSym p2.1 vk (.obj p2.2)
                | _ => p2.1
              let save := s.symtable
              match interp fuel (.procBody body)
                  { s with symtable := overlay s.symtable symlocals,
                           retval := Option.none } with
              | (.raised k, s2) => (.raised k, s2)  -- restore is skipped
              | (.val rv, s2) =>
                (.val (some (rv.getD Value.none)), { s2 with symtable := save })
              | (r2, s2) => (r2, s2)
      | _ => (.raised .typeError, s)
    | .procBody l =>
      match l with
      | [] => (.val Option.none, s)
      | t' :: rest =>
        match interp fuel (.stmt true t') s with
        | (.raised k, s1) => (.raised k, s1)
        | (_, s1) =>
          if s1.error.isEmpty then
            match s1.retval with
            | some rv => (.val (some rv), s1)
            | _ => interp fuel (.procBody rest) s1
          else (.val Option.none, s1)

/-- `Interpreter.eval` on a parsed module: reset the error accumulator, then
`run` the module node (whose handler `on_module` surfaces the last value). -/
def evalProg (fuel : Nat) (prog : List Stmt) (s : St) : Res × St :=
  match interp fuel (.modSeq prog Option.none) { s with error := [] } with
  | (.raised k, s1) => reraise k "" s1
  | r => r

/-- A fresh interpreter state (empty seed namespace). -/
def initSt : St :=
  { symtable := [], error := [], interrupt := Option.none,
    retval := Option.none, lastError := Option.none }

/-! ### The symbol model of `src/asteval/frame.py` -/

/-- `frame.Symbol`: a named slot holding a value, a modified flag and a
secret flag (the name itself lives in the surrounding dict key). -/
structure Symbol (α : Type) where
  value : α
  modified : Bool
  secret : Bool

/-- `Symbol.set`: the modified flag is overwritten with whether the new
value differs from the stored one (`self.modified = value != self.value`),
then value and secret are replaced. -/
def Symbol.set [DecidableEq α] (sym : Symbol α) (value : α) (secret : Bool) :
    Symbol α :=
  { value := value, modified := decide (value ≠ sym.value), secret := secret }

/-- The private `__symbols` dict of `frame.Frame` (the frame's name, return
slot, id, line number and filename play no part in the claims). -/
structure Frame (α : Type) where
  symbols : List (String × Symbol α)

/-- Reading the `__symbols` dict. -/
def symbolsLookup {α : Type} : List (String × Symbol α) → String → Option (Symbol α)
  | [], _ => Option.none
  | (k, sym) :: rest, n => if k = n then some sym else symbolsLookup rest n

/-- In-place update of the `__symbols` dict performed by
`Frame.set_symbol`: call `Symbol.set` on an existing symbol, else store a
fresh `Symbol` (whose constructor sets `modified = True`). -/
def setSymbolList {α : Type} [DecidableEq α] :
    List (String × Symbol α) → String → α → Bool → List (String × Symbol α)
  | [], name, val, secret =>
    [(name, { value := val, modified := true, secret := secret })]
  | (k, sym) :: rest, name, val, secret =>
    if k = name then (k, sym.set val secret) :: rest
    else (k, sym) :: setSymbolList rest name val secret

/-- `Frame.set_symbol` (the returned `modified` flag is recoverable through
`Frame.is_modified` on the result). -/
def Frame.set_symbol {α : Type} [DecidableEq α] (fr : Frame α) (name : String)
    (val : α) (secret : Bool) : Frame α :=
  ⟨setSymbolList fr.symbols name val secret⟩

/-- `Frame.is_symbol`. -/
def Frame.is_symbol {α : Type} (fr : Frame α) (name : String) : Bool :=
  (symbolsLookup fr.symbols name).isSome

/-- `Frame.is_modified` (a missing symbol reads as modified: the KeyError
branch returns True). -/
def Frame.is_modified {α : Type} (fr : Frame α) (name : String) : Bool :=
  match symbolsLookup fr.symbols name with
  | some sym => sym.modified
  | _ => true

/-- `Frame.get_symbol_value`, totalised with `Option` (the Python version
raises KeyError on a missing name). -/
def Frame.get_symbol_value {α : Type} (fr : Frame α) (name : String) : Option α :=
  (symbolsLookup fr.symbols name).map (fun sym => sym.value)

/-! ### Concrete programs used by the counterexamples and witnesses -/

/-- `def f(x): y = x*2; undefined` then `f(10)`: the body's second statement
fails, so the exception raised by `raise_exception` propagates out of
`Procedure.__call__` past the namespace restore. -/
def progRestoreLoss : List Stmt :=
  [.defS "f" ["x"] Option.none Option.none
     [.assign "y" (.binop .mul (.name "x") (.num 2)),
      .exprS (.name "undefined")],
   .exprS (.call (.name "f") [.num 10])]

/-- `def f(): if True: return 1; return 2` then `f()`: `on_if` runs the
sibling after the first `return`, which overwrites the return slot. -/
def progReturnSiblings : List Stmt :=
  [.defS "f" [] Option.none Option.none
     [.ifS (.boolLit true) [.ret (some (.num 1)), .ret (some (.num 2))] []],
   .exprS (.call (.name "f") [])]

/-- `def f(): for i in [1,2,3]: return i` then `f()`: `on_return` does not
set the interrupt flag, so the loop keeps iterating and overwriting the
return slot. -/
def progReturnLoop : List Stmt :=
  [.defS "f" [] Option.none Option.none
     [.forS "i" (.listLit [.num 1, .num 2, .num 3])
        [.ret (some (.name "i"))] []],
   .exprS (.call (.name "f") [])]

/-- A for-loop whose body catches a failure with try/except and never
executes `break`, with an else clause setting `sflag`. -/
def progLoopElse : List Stmt :=
  [.assign "sflag" (.num 0),
   .forS "i" (.listLit [.num 1, .num 2])
     [.tryS [.exprS (.name "boom")] [(Option.none, [.pass])] [] []]
     [.assign "sflag" (.num 1)]]

/-- A try statement whose body fails and whose first handler body also
fails; the second handler would bind `z`. -/
def progHandlersSkip : List Stmt :=
  [.tryS [.exprS (.name "boom")]
     [(Option.none, [.exprS (.name "alsoboom")]),
      (Option.none, [.assign "z" (.num 1)])]
     [] []]

/-- A try statement whose body fails and whose only handler body also
fails; the finally block would bind `w`. -/
def progFinallySkip : List Stmt :=
  [.tryS [.exprS (.name "boom")]
     [(Option.none, [.exprS (.name "boom2")])]
     []
     [.assign "w" (.num 1)]]

/-- A state with a pending failure record, for the sticky-error witnesses. -/
def sErrDemo : St :=
  { symtable := [], error := [⟨.nameError, "boom"⟩], interrupt := some .brk,
    retval := Option.none, lastError := Option.none }

/-- A one-required-parameter Procedure returning its parameter, for the
arity counterexample and witness. -/
def procOneArg : Value :=
  .proc "f" ["x"] [] Option.none Option.none [.ret (some (.name "x"))]

/-! ### Helper lemmas -/

theorem isEmpty_false_of_ne_nil {l : List Err} (h : l ≠ []) :
    l.isEmpty = false := by
  cases l with
  | nil => exact absurd rfl h
  | cons a t => rfl

/-- A `run` call on a statement node with a pending error is a no-op. -/
theorem stmt_noop_of_error (fuel : Nat) (wr : Bool) (t : Stmt) (s : St)
    (h : s.error ≠ []) :
    interp (fuel + 1) (.stmt wr t) s = (.val Option.none, s) := by
  simp [interp, isEmpty_false_of_ne_nil h]

/-- A `run` call on an expression node with a pending error is a no-op. -/
theorem expr_noop_of_error (fuel : Nat) (e : Expr) (s : St)
    (h : s.error ≠ []) :
    interp (fuel + 1) (.expr e) s = (.val Option.none, s) := by
  simp [interp, isEmpty_false_of_ne_nil h]

/-- A `run` call on an except-handler node with a pending error is a no-op. -/
theorem handlerRun_noop_of_error (fuel : Nat) (h : Option String × List Stmt)
    (s : St) (herr : s.error ≠ []) :
    interp (fuel + 1) (.handlerRun h) s = (.val Option.none, s) := by
  simp [interp, isEmpty_false_of_ne_nil herr]

/-- A statement sequence dispatched with a pending error leaves the state
untouched (each `run` call no-ops), given enough cycle budget. -/
theorem seq_noop_of_error (l : List Stmt) : ∀ (fuel : Nat) (s : St),
    s.error ≠ [] → l.length < fuel →
    interp fuel (.seq true l) s = (.val Option.none, s) := by
  induction l with
  | nil =>
    intro fuel s h hf
    obtain ⟨f, rfl⟩ : ∃ f, fuel = f + 1 := ⟨fuel - 1, by omega⟩
    simp [interp]
  | cons t rest ih =>
    intro fuel s h hf
    obtain ⟨f, rfl⟩ : ∃ f, fuel = f + 1 := ⟨fuel - 1, by omega⟩
    have hf' : rest.length < f := by
      simpa [List.length_cons] using Nat.lt_of_succ_lt_succ hf
    obtain ⟨f', rfl⟩ : ∃ f', f = f' + 1 := ⟨f - 1, by omega⟩
    have unf : interp (f' + 1 + 1) (.seq true (t :: rest)) s =
        match interp (f' + 1) (.stmt true t) s with
        | (.raised k, s1) => (.raised k, s1)
        | (_, s1) => interp (f' + 1) (.seq true rest) s1 := rfl
    rw [unf, stmt_noop_of_error f' true t s h]
    exact ih (f' + 1) s h hf'

/-- Reading back a symbol just stored by `Frame.set_symbol`. -/
theorem symbolsLookup_set {α : Type} [DecidableEq α]
    (l : List (String × Symbol α)) (name : String) (v : α) (secret : Bool) :
    symbolsLookup (setSymbolList l name v secret) name =
      some (match symbolsLookup l name with
            | some sym => sym.set v secret
            | _ => { value := v, modified := true, secret := secret }) := by
  induction l with
  | nil => simp [setSymbolList, symbolsLookup]
  | cons kv rest ih =>
    by_cases hk : kv.1 = name
    · simp [setSymbolList, symbolsLookup, hk]
    · simp [setSymbolList, symbolsLookup, hk, ih]

/-! ### Claims -/

/-- C10: after `Frame.set_symbol(name, v)` the symbol's modified flag is
True exactly when the name was previously absent from the frame or its
previously stored value differed from `v`; in particular re-setting a
symbol to its current value resets the flag to False even if it was True
before (the flag is overwritten by `Symbol.set`, not accumulated). -/
theorem set_symbol_modified {α : Type} [DecidableEq α] (fr : Frame α)
    (name : String) (v : α) (secret : Bool) :
    (fr.set_symbol name v secret).is_modified name = true ↔
      (fr.is_symbol name = false ∨ fr.get_symbol_value name ≠ some v) := by
  unfold Frame.set_symbol Frame.is_modified Frame.is_symbol Frame.get_symbol_value
  rw [symbolsLookup_set]
  cases hsym : symbolsLookup fr.symbols name with
  | none => simp
  | some sym =>
    simp only [Symbol.set, Option.isSome_some, Option.map_some, ne_eq,
      Option.some, decide_eq_true_eq]
    constructor
    · intro hne
      exact Or.inr (by simpa [eq_comm] using hne)
    · intro hor
      rcases hor with hfalse | hne
      · cases hfalse
      · simpa [eq_comm] using hne

/-- C2: once a failure record is in the error accumulator, every subsequent
dispatch step of the evaluation — an `Interpreter.run` call on a statement,
an expression or an except-handler node — immediately returns no value, runs
no node handler, and leaves the whole state (namespace included) unchanged;
only code outside `run` (the try/except path, or a fresh top-level `eval`)
clears the list. -/
theorem run_sticky_error (fuel : Nat) (wr : Bool) (t : Stmt) (e : Expr)
    (h : Option String × List Stmt) (s : St) (herr : s.error ≠ []) :
    interp (fuel + 1) (.stmt wr t) s = (.val Option.none, s) ∧
    interp (fuel + 1) (.expr e) s = (.val Option.none, s) ∧
    interp (fuel + 1) (.handlerRun h) s = (.val Option.none, s) :=
  ⟨stmt_noop_of_error fuel wr t s herr, expr_noop_of_error fuel e s herr,
   handlerRun_noop_of_error fuel h s herr⟩

/-- Witness for `run_sticky_error` at a concrete errored state. -/
theorem run_sticky_error_witness :
    sErrDemo.error ≠ [] ∧
    interp 4 (.stmt true .pass) sErrDemo = (.val Option.none, sErrDemo) ∧
    interp 4 (.expr (.num 0)) sErrDemo = (.val Option.none, sErrDemo) ∧
    interp 4 (.handlerRun (Option.none, [])) sErrDemo = (.val Option.none, sErrDemo) := by
  have hne : sErrDemo.error ≠ [] := by decide
  obtain ⟨h1, h2, h3⟩ :=
    run_sticky_error 3 true .pass (.num 0) (Option.none, []) sErrDemo hne
  exact ⟨hne, h1, h2, h3⟩

/-- C1 (the code at the failing input): running
`def f(x): y = x*2; undefined` then `f(10)` ends with the failure raised,
yet the parameter binding `x = 10` and the callee-local binding `y = 20`
are still visible in the caller's namespace afterwards — the namespace
snapshot taken at call entry (which contained neither) was not restored,
because the exception raised by `raise_exception` propagates out of
`Procedure.__call__` before the restore assignment. -/
theorem proc_restore_skipped_on_error :
    (evalProg 60 progRestoreLoss initSt).1 = Res.raised .nameError ∧
    lookupSym (evalProg 60 progRestoreLoss initSt).2.symtable "x" = some (.int 10) ∧
    lookupSym (evalProg 60 progRestoreLoss initSt).2.symtable "y" = some (.int 20) ∧
    lookupSym initSt.symtable "x" = Option.none ∧
    lookupSym initSt.symtable "y" = Option.none :=
  ⟨rfl, rfl, rfl, rfl, rfl⟩

/-- C3 counterexample: in `progHandlersSkip` the try body fails, the first
handler runs (its recorded failure is still pending afterwards), but the
second declared handler's body never executes — `z` stays unbound — so it
is false that every declared handler runs against the failure. -/
theorem try_handlers_skip_cex :
    lookupSym (evalProg 40 progHandlersSkip initSt).2.symtable "z" = Option.none ∧
    (evalProg 40 progHandlersSkip initSt).2.error =
      [⟨.nameError, "name alsoboom is not defined"⟩, ⟨.nameError, ""⟩] :=
  ⟨rfl, rfl⟩

/-- C4 counterexample: in `progFinallySkip` the try body fails and the only
handler's body fails too; the finally block's statement `w = 1` is
dispatched but no-ops on the pending error, so `w` stays unbound — the
finally statements do not execute on this outcome. -/
theorem try_finally_skipped_cex :
    lookupSym (evalProg 40 progFinallySkip initSt).2.symtable "w" = Option.none ∧
    (evalProg 40 progFinallySkip initSt).2.error =
      [⟨.nameError, "name boom2 is not defined"⟩, ⟨.nameError, ""⟩] :=
  ⟨rfl, rfl⟩

/-- C5 counterexample: `def f(): if True: return 1; return 2` yields 2 (the
sibling after the first `return` still executes and overwrites the slot),
and `def f(): for i in [1,2,3]: return i` yields 3 (the `return` does not
stop the loop) — so a `return` does not halt all following statements. -/
theorem return_sibling_cex :
    (evalProg 60 progReturnSiblings initSt).1 = Res.val (some (.int 2)) ∧
    (evalProg 60 progReturnSiblings initSt).2.error = [] ∧
    (evalProg 80 progReturnLoop initSt).1 = Res.val (some (.int 3)) :=
  ⟨rfl, rfl, rfl⟩

/-- C6 counterexample: calling the one-parameter Procedure `f(x)` with two
positional arguments succeeds (returning the first argument) and records no
arity failure — the leftover argument is silently ignored. -/
theorem extra_args_ignored_cex :
    (interp 30 (.callProc procOneArg [.int 1, .int 2] []) initSt).1 =
      Res.val (some (.int 1)) ∧
    (interp 30 (.callProc procOneArg [.int 1, .int 2] []) initSt).2.error = [] :=
  ⟨rfl, rfl⟩

/-- C7 counterexample: `progLoopElse` contains no break statement, its loop
terminates normally with the failure in its body caught by try/except
(final error list empty), yet the else clause never runs (`sflag` stays 0)
and the loop stopped after the first element (`i = 1`). -/
theorem loop_else_cex :
    lookupSym (evalProg 60 progLoopElse initSt).2.symtable "sflag" = some (.int 0) ∧
    lookupSym (evalProg 60 progLoopElse initSt).2.symtable "i" = some (.int 1) ∧
    (evalProg 60 progLoopElse initSt).1 = Res.val Option.none ∧
    (evalProg 60 progLoopElse initSt).2.error = [] :=
  ⟨rfl, rfl, rfl, rfl⟩

/-- C8: a load-context attribute access on any object fails with an
attribute failure for every deny-listed name — even when the attribute is
actually present, since `attrs` is unrestricted in the first part — and a
failed native lookup of a non-denied name fails with the same externally
visible kind (`attributeError`, differing only in message). -/
theorem attribute_gate (fuel : Nat) (attrs : List (String × Value)) (s : St)
    (herr : s.error = []) (hobj : lookupSym s.symtable "o" = some (.obj attrs)) :
    (∀ a, a ∈ UNSAFE_ATTRS →
      interp (fuel + 4) (.expr (.attrLoad (.name "o") a)) s =
        (.raised .attributeError,
          { s with error := [⟨.attributeError, "cannnot access attribute " ++ a⟩,
                             ⟨.attributeError, ""⟩],
                   interrupt := some .brk })) ∧
    (∀ b, b ∉ UNSAFE_ATTRS → lookupSym attrs b = Option.none →
      interp (fuel + 4) (.expr (.attrLoad (.name "o") b)) s =
        (.raised .attributeError,
          { s with error := [⟨.attributeError, "no attribute " ++ b⟩,
                             ⟨.attributeError, ""⟩],
                   interrupt := some .brk })) := by
  constructor
  · intro a ha
    have hc : UNSAFE_ATTRS.contains a = true := List.elem_eq_true_of_mem ha
    simp [interp, herr, hobj, hc, ha, getattrV, raiseExcRes, recordErr, reraise,
      headKind]
  · intro b hb hlook
    have hc : UNSAFE_ATTRS.contains b = false := by
      rw [Bool.eq_false_iff]
      intro hcc
      exact hb (List.mem_of_elem_eq_true hcc)
    simp [interp, herr, hobj, hc, hb, getattrV, hlook, raiseExcRes, recordErr,
      reraise, headKind]

/-- Witness for `attribute_gate`: the deny-listed name fails although the
object carries it, the missing name fails with the same kind. -/
theorem attribute_gate_witness :
    interp 9 (.expr (.attrLoad (.name "o") "__class__"))
        { initSt with symtable := [("o", .obj [("__class__", .int 7)])] } =
      (.raised .attributeError,
        { initSt with
            symtable := [("o", .obj [("__class__", .int 7)])],
            error := [⟨.attributeError, "cannnot access attribute __class__"⟩,
                      ⟨.attributeError, ""⟩],
            interrupt := some .brk }) ∧
    interp 9 (.expr (.attrLoad (.name "o") "missing"))
        { initSt with symtable := [("o", .obj [("__class__", .int 7)])] } =
      (.raised .attributeError,
        { initSt with
            symtable := [("o", .obj [("__class__", .int 7)])],
            error := [⟨.attributeError, "no attribute missing"⟩,
                      ⟨.attributeError, ""⟩],
            interrupt := some .brk }) := by
  obtain ⟨h1, h2⟩ := attribute_gate 5 [("__class__", .int 7)]
    { initSt with symtable := [("o", .obj [("__class__", .int 7)])] } rfl rfl
  exact ⟨h1 "__class__" (by decide), h2 "missing" (by decide) rfl⟩

/-- The allowed side of the exact boundary: rewriting, not evaluation. -/
theorem safe_pow_ten_ok : safe_pow 10 10000 = .ok (10 ^ 10000) := by
  have hA : (10:Int).natAbs = 10 := rfl
  have hlt : (10:Nat) ^ 10000 < 10 ^ 10001 :=
    Nat.pow_lt_pow_right (by norm_num) (by norm_num)
  show (if 10 ^ MAX_POW_DIGITS ≤ (10:Int).natAbs ^ 10000 then
      Except.error () else Except.ok ((10:Int) ^ 10000)) = .ok (10 ^ 10000)
  rw [hA, show MAX_POW_DIGITS = 10001 from rfl, if_neg (not_le.mpr hlt)]

/-- The rejected side of the exact boundary. -/
theorem safe_pow_ten_err : safe_pow 10 10001 = .error () := by
  have hA : (10:Int).natAbs = 10 := rfl
  show (if 10 ^ MAX_POW_DIGITS ≤ (10:Int).natAbs ^ 10001 then
      Except.error () else Except.ok ((10:Int) ^ 10001)) = .error ()
  rw [hA, show MAX_POW_DIGITS = 10001 from rfl,
    if_pos (le_refl ((10:Nat) ^ 10001))]

/-- C9: the guarded integer power (modelled from the spec, since
`astutils.op2func` is not under src/) pre-validates against a fixed digit
ceiling: it fails exactly when the result would exceed `MAX_POW_DIGITS`
decimal digits; `10**10000` evaluates to the full value while `10**10001`
raises a resource failure (RuntimeError) — the boundary is exact, both for
`safe_pow` itself and through the engine's binop dispatch. -/
theorem pow_digit_ceiling :
    safe_pow 10 10000 = .ok (10 ^ 10000) ∧
    safe_pow 10 10001 = .error () ∧
    (∀ (b : Int) (e : Nat),
      safe_pow b e = .error () ↔
        MAX_POW_DIGITS < (Nat.digits 10 (b.natAbs ^ e)).length) ∧
    (∀ fuel : Nat,
      (evalProg (fuel + 7) [.exprS (.binop .pow (.num 10) (.num 10000))] initSt).1 =
        Res.val (some (.int (10 ^ 10000)))) ∧
    (∀ fuel : Nat,
      evalProg (fuel + 7) [.exprS (.binop .pow (.num 10) (.num 10001))] initSt =
        (Res.raised .runtimeError,
          { initSt with
              error := [⟨.runtimeError, ""⟩, ⟨.runtimeError, ""⟩, ⟨.runtimeError, ""⟩],
              interrupt := some .brk })) := by
  have htn0 : Int.toNat (10000:Int) = 10000 := rfl
  have htn1 : Int.toNat (10001:Int) = 10001 := rfl
  have hneg0 : ¬ ((10000:Int) < 0) := by norm_num
  have hneg1 : ¬ ((10001:Int) < 0) := by norm_num
  have ha0 : applyBin .pow (.int 10) (.int 10000) = .ok (.int (10 ^ 10000)) := by
    show (if (10000:Int) < 0 then Except.error ErrKind.typeError
      else match safe_pow 10 (Int.toNat (10000:Int)) with
        | .ok v => Except.ok (Value.int v)
        | .error _ => Except.error ErrKind.runtimeError) = .ok (.int (10 ^ 10000))
    rw [if_neg hneg0, htn0, safe_pow_ten_ok]
  have ha1 : applyBin .pow (.int 10) (.int 10001) = .error .runtimeError := by
    show (if (10001:Int) < 0 then Except.error ErrKind.typeError
      else match safe_pow 10 (Int.toNat (10001:Int)) with
        | .ok v => Except.ok (Value.int v)
        | .error _ => Except.error ErrKind.runtimeError) = .error .runtimeError
    rw [if_neg hneg1, htn1, safe_pow_ten_err]
  refine ⟨safe_pow_ten_ok, safe_pow_ten_err, ?_, ?_, ?_⟩
  · intro b e
    simp only [safe_pow]
    by_cases hle : 10 ^ MAX_POW_DIGITS ≤ b.natAbs ^ e
    · rw [if_pos hle]
      have hm : b.natAbs ^ e ≠ 0 := by
        intro h0
        rw [h0] at hle
        exact absurd hle (Nat.not_le.mpr (Nat.pow_pos (by norm_num)))
      rw [Nat.digits_len 10 _ (by norm_num) hm]
      have hlog := (Nat.pow_le_iff_le_log (by norm_num) hm).mp hle
      constructor
      · intro _
        omega
      · intro _
        rfl
    · rw [if_neg hle]
      rcases Nat.eq_zero_or_pos (b.natAbs ^ e) with h0 | hpos
      · rw [h0]
        simp [MAX_POW_DIGITS]
      · have hm : b.natAbs ^ e ≠ 0 := Nat.pos_iff_ne_zero.mp hpos
        rw [Nat.digits_len 10 _ (by norm_num) hm]
        have hnl : ¬ MAX_POW_DIGITS ≤ Nat.log 10 (b.natAbs ^ e) := fun hcon =>
          hle ((Nat.pow_le_iff_le_log (by norm_num) hm).mpr hcon)
        constructor
        · intro hbad
          cases hbad
        · intro hbad
          omega
  · intro fuel
    simp [evalProg, interp, ha0, recordErr, raiseExcRes, reraise, headKind]
  · intro fuel
    simp [evalProg, interp, ha1, recordErr, raiseExcRes, reraise, headKind]

/-- C5 amended: `return` fills the return slot (`some Value.none` is the
ReturnedNone sentinel, distinct from the empty slot left by a body that
never returns) and the Procedure's direct body stops at the next statement
boundary, the call yielding the slot's value; but the slot is polled only
between direct body statements — inside nested blocks the following
statements still run and a loop iteration that executed `return` continues
with the remaining iterations (later returns overwrite the slot) — and
neither a loop nor the module body consumes the slot. -/
theorem return_amended (fuel : Nat) (t : Stmt) (rest : List Stmt)
    (s s1 : St) (v : Option Value) (rv : Value)
    (hrun : interp fuel (.stmt true t) s = (.val v, s1))
    (herr : s1.error = [])
    (hret : s1.retval = some rv) :
    interp (fuel + 1) (.procBody (t :: rest)) s = (.val (some rv), s1) ∧
    interp (fuel + 1) (.procBody []) s = (.val Option.none, s) ∧
    interp (fuel + 1) (.stmtH (.ret Option.none)) s =
      (.val Option.none, { s with retval := some Value.none }) ∧
    (∀ (target : String) (w : Value) (vals : List Value)
        (body orelse : List Stmt) (s2 : St) (r2 : Res),
      valid_symbol_name target = true →
      interp fuel (.loopBody body)
          { s with symtable := insertSym s.symtable target w,
                   interrupt := Option.none } = (r2, s2) →
      (∀ k, r2 ≠ .raised k) →
      s2.interrupt = Option.none →
      interp (fuel + 1) (.forL target (w :: vals) body orelse) s =
        interp fuel (.forL target vals body orelse) s2) ∧
    (∀ (out : Option Value),
      interp (fuel + 1) (.modSeq (t :: rest) out) s =
        interp fuel (.modSeq rest v) s1) := by
  refine ⟨?_, rfl, rfl, ?_, ?_⟩
  · have unf : interp (fuel + 1) (.procBody (t :: rest)) s =
        match interp fuel (.stmt true t) s with
        | (.raised k, s1) => (.raised k, s1)
        | (_, s1) =>
          if s1.error.isEmpty then
            match s1.retval with
            | some rv => (.val (some rv), s1)
            | _ => interp fuel (.procBody rest) s1
          else (.val Option.none, s1) := rfl
    rw [unf, hrun]
    simp [herr, hret]
  · intro target w vals body orelse s2 r2 hv hloop hnr hint
    have unf : interp (fuel + 1) (.forL target (w :: vals) body orelse) s =
        (if valid_symbol_name target then
          match interp fuel (.loopBody body)
              { s with symtable := insertSym s.symtable target w,
                       interrupt := Option.none } with
          | (.raised k, s2) => (.raised k, s2)
          | (_, s2) =>
            if s2.interrupt = some .brk then (.val Option.none, s2)
            else interp fuel (.forL target vals body orelse) s2
         else raiseExcRes .nameError ("invalid symbol name " ++ target) s) := rfl
    rw [unf, if_pos hv, hloop]
    cases r2 with
    | raised k => exact absurd rfl (hnr k)
    | val v2 => simp [hint]
    | vals vs2 => simp [hint]
    | flag b2 => simp [hint]
  · intro out
    have unf : interp (fuel + 1) (.modSeq (t :: rest) out) s =
        match interp fuel (.stmt true t) s with
        | (.raised k, s1) => (.raised k, s1)
        | (.val v, s1) => interp fuel (.modSeq rest v) s1
        | (_, s1) => interp fuel (.modSeq rest Option.none) s1 := rfl
    rw [unf, hrun]

/-- Witness for `return_amended`: a direct body `return 42; pass` stops at
the return and yields 42. -/
theorem return_amended_witness :
    interp 5 (.stmt true (.ret (some (.num 42)))) initSt =
      (.val Option.none, { initSt with retval := some (.int 42) }) ∧
    interp 6 (.procBody [.ret (some (.num 42)), .pass]) initSt =
      (.val (some (.int 42)), { initSt with retval := some (.int 42) }) := by
  refine ⟨rfl, ?_⟩
  exact (return_amended 5 (.ret (some (.num 42))) [.pass]
    initSt { initSt with retval := some (.int 42) } Option.none (.int 42)
    rfl rfl rfl).1

/-- C7 amended: a loop's else clause runs exactly once when the loop ends
with the pending interrupt flag not set to Break, and zero times when an
iteration leaves the Break interrupt set; the flag is set by a break
statement but equally by `raise_exception` on any recorded failure — even
one caught by a try/except inside the body — so a caught failure also
suppresses the else clause, while continue (a non-Break interrupt) and
zero-iteration loops still reach it. -/
theorem loop_else_amended (fuel : Nat) :
    (∀ (target : String) (body orelse : List Stmt) (s : St),
      interp (fuel + 1) (.forL target [] body orelse) s =
        interp fuel (.seq true orelse) s) ∧
    (∀ (target : String) (w : Value) (vals : List Value)
        (body orelse : List Stmt) (s s2 : St) (r2 : Res),
      valid_symbol_name target = true →
      interp fuel (.loopBody body)
          { s with symtable := insertSym s.symtable target w,
                   interrupt := Option.none } = (r2, s2) →
      (∀ k, r2 ≠ .raised k) →
      s2.interrupt = some .brk →
      interp (fuel + 1) (.forL target (w :: vals) body orelse) s =
        (.val Option.none, s2)) ∧
    (∀ (target : String) (w : Value) (vals : List Value)
        (body orelse : List Stmt) (s s2 : St) (r2 : Res),
      valid_symbol_name target = true →
      interp fuel (.loopBody body)
          { s with symtable := insertSym s.symtable target w,
                   interrupt := Option.none } = (r2, s2) →
      (∀ k, r2 ≠ .raised k) →
      s2.interrupt ≠ some .brk →
      interp (fuel + 1) (.forL target (w :: vals) body orelse) s =
        interp fuel (.forL target vals body orelse) s2) ∧
    (∀ (test : Expr) (body orelse : List Stmt) (s s1 : St) (tv : Option Value),
      interp fuel (.expr test) s = (.val tv, s1) →
      truthy (tv.getD .none) = false →
      interp (fuel + 1) (.whileL test body orelse) s =
        interp fuel (.seq true orelse) s1) ∧
    (∀ (test : Expr) (body orelse : List Stmt) (s s1 s2 : St)
        (tv : Option Value) (r2 : Res),
      interp fuel (.expr test) s = (.val tv, s1) →
      truthy (tv.getD .none) = true →
      interp fuel (.loopBody body) { s1 with interrupt := Option.none } = (r2, s2) →
      (∀ k, r2 ≠ .raised k) →
      s2.interrupt = some .brk →
      interp (fuel + 1) (.whileL test body orelse) s = (.val Option.none, s2)) ∧
    (∀ s : St, interp (fuel + 1) (.stmtH .brk) s =
      (.val Option.none, { s with interrupt := some .brk })) ∧
    (∀ (k : ErrKind) (m : String) (s : St),
      (recordErr k m s).interrupt = some .brk) := by
  refine ⟨fun _ _ _ _ => rfl, ?_, ?_, ?_, ?_, fun _ => rfl, fun _ _ _ => rfl⟩
  · intro target w vals body orelse s s2 r2 hv hloop hnr hint
    have unf : interp (fuel + 1) (.forL target (w :: vals) body orelse) s =
        (if valid_symbol_name target then
          match interp fuel (.loopBody body)
              { s with symtable := insertSym s.symtable target w,
                       interrupt := Option.none } with
          | (.raised k, s2) => (.raised k, s2)
          | (_, s2) =>
            if s2.interrupt = some .brk then (.val Option.none, s2)
            else interp fuel (.forL target vals body orelse) s2
         else raiseExcRes .nameError ("invalid symbol name " ++ target) s) := rfl
    rw [unf, if_pos hv, hloop]
    cases r2 with
    | raised k => exact absurd rfl (hnr k)
    | val v2 => simp [hint]
    | vals vs2 => simp [hint]
    | flag b2 => simp [hint]
  · intro target w vals body orelse s s2 r2 hv hloop hnr hint
    have unf : interp (fuel + 1) (.forL target (w :: vals) body orelse) s =
        (if valid_symbol_name target then
          match interp fuel (.loopBody body)
              { s with symtable := insertSym s.symtable target w,
                       interrupt := Option.none } with
          | (.raised k, s2) => (.raised k, s2)
          | (_, s2) =>
            if s2.interrupt = some .brk then (.val Option.none, s2)
            else interp fuel (.forL target vals body orelse) s2
         else raiseExcRes .nameError ("invalid symbol name " ++ target) s) := rfl
    rw [unf, if_pos hv, hloop]
    cases r2 with
    | raised k => exact absurd rfl (hnr k)
    | val v2 => simp [hint]
    | vals vs2 => simp [hint]
    | flag b2 => simp [hint]
  · intro test body orelse s s1 tv htest htv
    have unf : interp (fuel + 1) (.whileL test body orelse) s =
        (match interp fuel (.expr test) s with
         | (.val tv, s1) =>
           if truthy (tv.getD .none) then
             match interp fuel (.loopBody body) { s1 with interrupt := Option.none } with
             | (.raised k, s2) => (.raised k, s2)
             | (_, s2) =>
               if s2.interrupt = some .brk then (.val Option.none, s2)
               else interp fuel (.whileL test body orelse) s2
           else interp fuel (.seq true orelse) s1
         | (r1, s1) => (r1, s1)) := rfl
    rw [unf, htest]
    simp [htv]
  · intro test body orelse s s1 s2 tv r2 htest htv hloop hnr hint
    have unf : interp (fuel + 1) (.whileL test body orelse) s =
        (match interp fuel (.expr test) s with
         | (.val tv, s1) =>
           if truthy (tv.getD .none) then
             match interp fuel (.loopBody body) { s1 with interrupt := Option.none } with
             | (.raised k, s2) => (.raised k, s2)
             | (_, s2) =>
               if s2.interrupt = some .brk then (.val Option.none, s2)
               else interp fuel (.whileL test body orelse) s2
           else interp fuel (.seq true orelse) s1
         | (r1, s1) => (r1, s1)) := rfl
    rw [unf, htest]
    simp only [htv, if_true, hloop]
    cases r2 with
    | raised k => exact absurd rfl (hnr k)
    | val v2 => simp [hint]
    | vals vs2 => simp [hint]
    | flag b2 => simp [hint]

/-- Witness for `loop_else_amended`: an iteration that executes `break`
leaves the Break interrupt set and the else clause of
`for i in [1, 2]: break; else: sflag = 1` never runs, while the
zero-iteration loop runs its else clause. -/
theorem loop_else_amended_witness :
    interp 5 (.loopBody [.brk])
        { initSt with symtable := [("i", .int 1)], interrupt := Option.none } =
      (.val Option.none,
        { initSt with symtable := [("i", .int 1)], interrupt := some .brk }) ∧
    interp 6 (.forL "i" [.int 1, .int 2] [.brk] [.assign "sflag" (.num 1)]) initSt =
      (.val Option.none,
        { initSt with symtable := [("i", .int 1)], interrupt := some .brk }) ∧
    interp 6 (.forL "i" [] [.brk] [.assign "sflag" (.num 1)]) initSt =
      interp 5 (.seq true [.assign "sflag" (.num 1)]) initSt := by
  refine ⟨rfl, ?_, ?_⟩
  · exact (loop_else_amended 5).2.1 "i" (.int 1) [.int 2] [.brk]
      [.assign "sflag" (.num 1)] initSt
      { initSt with symtable := [("i", .int 1)], interrupt := some .brk }
      (.val Option.none) rfl rfl (fun k h => Res.noConfusion h) rfl
  · exact (loop_else_amended 5).1 "i" [.brk] [.assign "sflag" (.num 1)] initSt

/-- C3 amended: when a try-body statement fails, execution of the body stops
there (the remaining body statements never appear in the result), the
pending error list is cleared, and the last recorded failure's exception
value is stored as last_error before the handlers are dispatched in
declaration order against that same failure regardless of its kind, a
handler with a declared name binding the error value first; afterwards
last_error is reset, the else block is skipped, and the finally block runs.
However a handler's binding and body only run while the error list is still
empty: a failure inside an earlier handler's body makes the remaining
handler dispatches no-ops. -/
theorem try_handlers_amended (fuel : Nat) (t : Stmt) (rest : List Stmt)
    (handlers : List (Option String × List Stmt)) (orelse fin : List Stmt)
    (s s1 s3 s4 : St) (r rh rf : Res) (k0 : ErrKind) (m0 : String)
    (hrun : interp fuel (.stmt false t) s = (r, s1))
    (hnr : ∀ k, r ≠ .raised k)
    (herr : s1.error ≠ [])
    (hlast : s1.error.getLast? = some ⟨k0, m0⟩)
    (hhnd : interp fuel (.handlersT handlers)
        { s1 with lastError := some (.exc k0 m0), error := [] } = (rh, s3))
    (hnrh : ∀ k, rh ≠ .raised k)
    (hfin : interp (fuel + 1) (.seq true fin)
        { s3 with lastError := Option.none } = (rf, s4))
    (hnrf : ∀ k, rf ≠ .raised k) :
    interp (fuel + 2) (.stmtH (.tryS (t :: rest) handlers orelse fin)) s =
      (.val Option.none, s4) ∧
    (∀ (h : Option String × List Stmt) (hs : List (Option String × List Stmt))
        (s' : St),
      interp (fuel + 1) (.handlersT (h :: hs)) s' =
        match interp fuel (.handlerRun h) s' with
        | (.raised k, s2) => (.raised k, s2)
        | (_, s2) => interp fuel (.handlersT hs) s2) ∧
    (∀ (h : Option String × List Stmt) (s' : St), s'.error ≠ [] →
      interp (fuel + 1) (.handlerRun h) s' = (.val Option.none, s')) ∧
    (∀ (nm : String) (hbody : List Stmt) (kk : ErrKind) (mm : String) (s' : St),
      valid_symbol_name nm = true →
      s'.lastError = some (.exc kk mm) →
      interp (fuel + 1) (.handlerH (some nm, hbody)) s' =
        interp fuel (.seq false hbody)
          { s' with symtable := insertSym s'.symtable nm (.exc kk mm) }) := by
  refine ⟨?_, fun h hs s' => rfl, ?_, ?_⟩
  · have e2 : interp (fuel + 1) (.tryBodyT (t :: rest) true handlers) s =
        (.flag false, { s3 with lastError := Option.none }) := by
      have unf2 : interp (fuel + 1) (.tryBodyT (t :: rest) true handlers) s =
          (match interp fuel (.stmt false t) s with
           | (.raised k, s1) => (.raised k, s1)
           | (_, s1) =>
             if s1.error.isEmpty then
               interp fuel (.tryBodyT rest (true && s1.error.isEmpty) handlers) s1
             else
               let le := match s1.error.getLast? with
                 | some e => some (Value.exc e.kind e.msg)
                 | _ => Option.none
               match interp fuel (.handlersT handlers)
                   { s1 with lastError := le, error := [] } with
               | (.raised k, s2) => (.raised k, s2)
               | (_, s2) =>
                 (.flag (true && s1.error.isEmpty),
                   { s2 with lastError := Option.none })) := rfl
      rw [unf2, hrun]
      cases r with
      | raised k => exact absurd rfl (hnr k)
      | val v =>
        simp only [isEmpty_false_of_ne_nil herr, Bool.false_eq_true, if_false,
          hlast, Bool.and_false, hhnd]
      | vals vs =>
        simp only [isEmpty_false_of_ne_nil herr, Bool.false_eq_true, if_false,
          hlast, Bool.and_false, hhnd]
      | flag b =>
        simp only [isEmpty_false_of_ne_nil herr, Bool.false_eq_true, if_false,
          hlast, Bool.and_false, hhnd]
    have unf1 : interp (fuel + 2) (.stmtH (.tryS (t :: rest) handlers orelse fin)) s =
        (match interp (fuel + 1) (.tryBodyT (t :: rest) true handlers) s with
         | (.raised k, s1) => (.raised k, s1)
         | (.flag noErrors, s1) =>
           match (if noErrors then interp (fuel + 1) (.seq true orelse) s1
                  else (.val Option.none, s1)) with
           | (.raised k, s2) => (.raised k, s2)
           | (_, s2) =>
             match interp (fuel + 1) (.seq true fin) s2 with
             | (.raised k, s3) => (.raised k, s3)
             | (_, s3) => (.val Option.none, s3)
         | (_, s1) => (.val Option.none, s1)) := rfl
    rw [unf1, e2]
    simp only [Bool.false_eq_true, if_false, hfin]
  · intro h s' herr'
    exact handlerRun_noop_of_error fuel h s' herr'
  · intro nm hbody kk mm s' hv hle
    have unf : interp (fuel + 1) (.handlerH (some nm, hbody)) s' =
        (match (some nm : Option String), s'.lastError with
         | some nm, some lv =>
           if truthy lv then
             if valid_symbol_name nm then
               interp fuel (.seq false hbody)
                 { s' with symtable := insertSym s'.symtable nm lv }
             else raiseExcRes .nameError ("invalid symbol name " ++ nm) s'
           else interp fuel (.seq false hbody) s'
         | _, _ => interp fuel (.seq false hbody) s') := rfl
    rw [unf, hle]
    simp [truthy, hv]

/-- Witness for `try_handlers_amended`: a failing try-body statement with
one handler binding the error to `e` and assigning `g`, and a finally block
assigning `w`. -/
theorem try_handlers_amended_witness :
    interp 10 (.stmtH (.tryS [.exprS (.name "boom")]
        [(some "e", [.assign "g" (.num 5)])] [.assign "c" (.num 3)]
        [.assign "w" (.num 1)])) initSt =
      (.val Option.none,
        { symtable := [("e", .exc .nameError ""), ("g", .int 5), ("w", .int 1)],
          error := [], interrupt := some .brk, retval := Option.none,
          lastError := Option.none }) := by
  exact (try_handlers_amended 8 (.exprS (.name "boom")) []
    [(some "e", [.assign "g" (.num 5)])] [.assign "c" (.num 3)]
    [.assign "w" (.num 1)] initSt
    { symtable := [], error := [⟨.nameError, "name boom is not defined"⟩,
        ⟨.nameError, ""⟩], interrupt := some .brk, retval := Option.none,
      lastError := Option.none }
    { symtable := [("e", .exc .nameError ""), ("g", .int 5)], error := [],
      interrupt := some .brk, retval := Option.none,
      lastError := some (.exc .nameError "") }
    { symtable := [("e", .exc .nameError ""), ("g", .int 5), ("w", .int 1)],
      error := [], interrupt := some .brk, retval := Option.none,
      lastError := Option.none }
    (.val Option.none) (.val Option.none) (.val Option.none) .nameError ""
    rfl (fun k h => Res.noConfusion h) (by decide) rfl rfl
    (fun k h => Res.noConfusion h) rfl (fun k h => Res.noConfusion h)).1

/-- C4 amended: the finally block's statements are dispatched as the last
phase on every outcome of the try statement — after the else block when the
body succeeded, directly after the handlers when it failed — but each
dispatch actually executes only while no error is pending: when a statement
inside an except handler itself fails, the error it leaves recorded turns
every finally statement into a no-op. -/
theorem try_finally_amended (fuel : Nat) (body : List Stmt)
    (handlers : List (Option String × List Stmt)) (orelse fin : List Stmt)
    (s : St) :
    (∀ (s1 s2 s3 : St) (ro rf : Res),
      interp (fuel + 1) (.tryBodyT body true handlers) s = (.flag true, s1) →
      interp (fuel + 1) (.seq true orelse) s1 = (ro, s2) →
      (∀ k, ro ≠ .raised k) →
      interp (fuel + 1) (.seq true fin) s2 = (rf, s3) →
      (∀ k, rf ≠ .raised k) →
      interp (fuel + 2) (.stmtH (.tryS body handlers orelse fin)) s =
        (.val Option.none, s3)) ∧
    (∀ (s1 s3 : St) (rf : Res),
      interp (fuel + 1) (.tryBodyT body true handlers) s = (.flag false, s1) →
      interp (fuel + 1) (.seq true fin) s1 = (rf, s3) →
      (∀ k, rf ≠ .raised k) →
      interp (fuel + 2) (.stmtH (.tryS body handlers orelse fin)) s =
        (.val Option.none, s3)) ∧
    (∀ (l : List Stmt) (s' : St), s'.error ≠ [] → l.length < fuel →
      interp fuel (.seq true l) s' = (.val Option.none, s')) := by
  have unf : interp (fuel + 2) (.stmtH (.tryS body handlers orelse fin)) s =
      (match interp (fuel + 1) (.tryBodyT body true handlers) s with
       | (.raised k, s1) => (.raised k, s1)
       | (.flag noErrors, s1) =>
         match (if noErrors then interp (fuel + 1) (.seq true orelse) s1
                else (.val Option.none, s1)) with
         | (.raised k, s2) => (.raised k, s2)
         | (_, s2) =>
           match interp (fuel + 1) (.seq true fin) s2 with
           | (.raised k, s3) => (.raised k, s3)
           | (_, s3) => (.val Option.none, s3)
       | (_, s1) => (.val Option.none, s1)) := rfl
  refine ⟨?_, ?_, fun l s' h hf => seq_noop_of_error l fuel s' h hf⟩
  · intro s1 s2 s3 ro rf hbody horelse hnro hfin hnrf
    rw [unf, hbody]
    simp only [if_true, horelse, hfin]
  · intro s1 s3 rf hbody hfin hnrf
    rw [unf, hbody]
    simp only [Bool.false_eq_true, if_false, hfin]

/-- Witness for `try_finally_amended`: a clean try body runs else then
finally; a finally statement dispatched onto a pending error is a no-op. -/
theorem try_finally_amended_witness :
    interp 10 (.stmtH (.tryS [.assign "a" (.num 1)]
        [(some "e", [.assign "g" (.num 5)])] [.assign "c" (.num 3)]
        [.assign "d" (.num 4)])) initSt =
      (.val Option.none,
        { symtable := [("a", .int 1), ("c", .int 3), ("d", .int 4)],
          error := [], interrupt := Option.none, retval := Option.none,
          lastError := Option.none }) ∧
    interp 8 (.seq true [.assign "w" (.num 1)]) sErrDemo =
      (.val Option.none, sErrDemo) := by
  obtain ⟨h1, h2, h3⟩ := try_finally_amended 8 [.assign "a" (.num 1)]
    [(some "e", [.assign "g" (.num 5)])] [.assign "c" (.num 3)]
    [.assign "d" (.num 4)] initSt
  constructor
  · exact h1
      { symtable := [("a", .int 1)], error := [], interrupt := Option.none,
        retval := Option.none, lastError := Option.none }
      { symtable := [("a", .int 1), ("c", .int 3)], error := [],
        interrupt := Option.none, retval := Option.none,
        lastError := Option.none }
      { symtable := [("a", .int 1), ("c", .int 3), ("d", .int 4)],
        error := [], interrupt := Option.none, retval := Option.none,
        lastError := Option.none }
      (.val Option.none) (.val Option.none)
      rfl rfl (fun k h => Res.noConfusion h) rfl (fun k h => Res.noConfusion h)
  · exact h3 [.assign "w" (.num 1)] sErrDemo (by decide) (by decide)

/-- Zipping ignores the elements of the second list beyond the first list's
length (pairs only form while both lists have elements). -/
theorem zip_take_length {α β : Type} (l1 : List α) :
    ∀ l2 : List β, l1.zip l2 = l1.zip (l2.take l1.length) := by
  induction l1 with
  | nil =>
    intro l2
    rfl
  | cons a t ih =>
    intro l2
    cases l2 with
    | nil => rfl
    | cons b t2 =>
      simp only [List.zip_cons_cons, List.length_cons, List.take_succ_cons]
      rw [← ih t2]

/-- C6 amended: when a Procedure declares no variadic-positional parameter
and receives more positional arguments than named parameters, the call does
not fail: the named parameters are bound to the first arguments in order and
the leftover positional arguments are silently ignored — the call behaves
exactly as if only the first `argnames.length` arguments had been passed;
an arity failure naming the expected and actual counts is raised only when
too few positional arguments are supplied. -/
theorem proc_arity_amended (fuel : Nat) (pname : String)
    (argnames : List String) (kwdefs : List (String × Value))
    (varkws : Option String) (body : List Stmt) (args : List Value)
    (kwargs : List (String × Value)) (s : St) :
    (argnames.length ≤ args.length →
      interp (fuel + 1)
          (.callProc (.proc pname argnames kwdefs Option.none varkws body)
            args kwargs) s =
        interp (fuel + 1)
          (.callProc (.proc pname argnames kwdefs Option.none varkws body)
            (args.take argnames.length) kwargs) s) ∧
    (args.length < argnames.length →
      interp (fuel + 1)
          (.callProc (.proc pname argnames kwdefs Option.none varkws body)
            args []) s =
        raiseExcRes .typeError (arityMsg pname argnames.length args.length) s) := by
  constructor
  · intro h
    have hlt : ¬ (args.length < argnames.length) := not_lt.mpr h
    have htk : (args.take argnames.length).length = argnames.length := by
      simp [List.length_take, Nat.min_eq_left h]
    simp only [interp, hlt, htk, false_and, if_false, lt_self_iff_false]
    rw [← zip_take_length]
  · intro h
    have hfind : argnames.find?
        (fun targ => (lookupSym ([] : List (String × Value)) targ).isSome) =
          Option.none :=
      List.find?_eq_none.mpr (fun x _ => by simp [lookupSym])
    simp only [interp, List.length_nil, lt_irrefl, and_false, if_false, hfind, h,
      if_true]

/-- Witness for `proc_arity_amended`: the one-parameter Procedure called
with two arguments behaves exactly like the call with one, and called with
none it raises the arity failure naming expected and actual counts. -/
theorem proc_arity_amended_witness :
    interp 30 (.callProc procOneArg [.int 1, .int 2] []) initSt =
      interp 30 (.callProc procOneArg [.int 1] []) initSt ∧
    interp 30 (.callProc procOneArg [] []) initSt =
      raiseExcRes .typeError (arityMsg "f" 1 0) initSt := by
  constructor
  · exact (proc_arity_amended 29 "f" ["x"] [] Option.none
      [.ret (some (.name "x"))] [.int 1, .int 2] [] initSt).1 (by decide)
  · exact (proc_arity_amended 29 "f" ["x"] [] Option.none
      [.ret (some (.name "x"))] [] [] initSt).2 (by decide)

/-- Witness for `set_symbol_modified`: re-setting a symbol whose modified
flag is True to its current value. -/
theorem set_symbol_modified_witness :
    ((Frame.mk [("n", ⟨(5:Int), true, false⟩)]).set_symbol "n" 5 false).is_modified "n" = true ↔
      ((Frame.mk [("n", ⟨(5:Int), true, false⟩)]).is_symbol "n" = false ∨
        (Frame.mk [("n", ⟨(5:Int), true, false⟩)]).get_symbol_value "n" ≠ some 5) :=
  set_symbol_modified (Frame.mk [("n", ⟨(5:Int), true, false⟩)]) "n" 5 false

end Asteval
